import Mathlib

/-!
Shallow embedding of the password policy engine of `src/modules/password/__init__.py`
(mailcow-tools).  The embedding follows the Python source line by line:

* character pools are the CPython `string` module constants restricted to ASCII
  (`string.ascii_lowercase`, `string.ascii_uppercase`, `string.digits`,
  `string.punctuation`);
* `Password.generate`'s candidate is a mutable list of characters; its while/for
  loops become structural recursion (`genLoop`) and a left fold (`genPass`);
* randomness (`random.choices` / `random.choice`) is modelled by an explicit
  stream `σ : Nat → Nat` of raw draws; a call `random.choice(pool)` consuming the
  n-th draw returns `pool[σ n % pool.length]`, so every possible behaviour of the
  random source corresponds to some stream and vice versa;
* the unbounded recursive retry `return Password.generate(policy)` is modelled
  with an explicit retry budget `fuel` (the source has no such bound); each retry
  round `a` uses its own stream `σs a`;
* fallible steps (`policy is None`, the `int(...)` parses) return `Option`.
-/

set_option maxRecDepth 100000

namespace MailcowTools

/-- The CPython constant `string.ascii_lowercase`. -/
def asciiLowercase : List Char := "abcdefghijklmnopqrstuvwxyz".toList

/-- The CPython constant `string.ascii_uppercase`. -/
def asciiUppercase : List Char := "ABCDEFGHIJKLMNOPQRSTUVWXYZ".toList

/-- The CPython constant `string.ascii_letters` (lowercase then uppercase). -/
def asciiLetters : List Char := asciiLowercase ++ asciiUppercase

/-- The CPython constant `string.digits`. -/
def asciiDigits : List Char := "0123456789".toList

/-- The CPython constant `string.punctuation` (32 ASCII punctuation characters). -/
def punctuation : List Char := "!\"#$%&\x27()*+,-./:;<=>?@[\\]^_\x60\x7b|\x7d~".toList

/-- The pool `string.ascii_letters + string.digits` used by the initial fill in
`Password.generate` (line 81). -/
def alnumPool : List Char := asciiLetters ++ asciiDigits

/-- One draw of `random.choice(pool)`: the raw draw `r` from the stream selects
`pool[r % pool.length]`.  Every element of a nonempty pool is selected by some
`r`, and nothing outside the pool ever is. -/
def choice (pool : List Char) (r : Nat) : Char := pool.getD (r % pool.length) 'a'

/-- A password policy after the `int(...)` conversions of `Password.generate`
lines 70-74.  Field names follow the mailcow policy dict keys.  Per spec §3 all
fields are non-negative integers, so they are modelled as `Nat`. -/
structure Policy where
  length : Nat
  chars : Nat
  special_chars : Nat
  lowerupper : Nat
  numbers : Nat
deriving DecidableEq, Repr

/-- The normalization of `Password.generate` lines 76-78: if the sum of the four
class minimums exceeds `min_length`, `min_length` is raised to that sum. -/
def effectiveLen (p : Policy) : Nat :=
  if p.length < p.chars + p.lowerupper + p.numbers + p.special_chars then
    p.chars + p.lowerupper + p.numbers + p.special_chars
  else p.length

/-- The mutable state of one generation attempt: the candidate list `password`,
the four remaining-requirement counters, the `password_ready` flag, and the
index `k` of the next unused raw draw of the random stream. -/
structure GenState where
  password : List Char
  min_chars : Nat
  min_lowerupper : Nat
  min_numbers : Nat
  min_special_chars : Nat
  password_ready : Bool
  k : Nat
deriving Repr

/-- The test `min_chars == 0 and min_lowerupper == 0 and min_numbers == 0 and
min_special_chars == 0` of line 103. -/
def countersDone (s : GenState) : Bool :=
  s.min_chars == 0 && s.min_lowerupper == 0 && s.min_numbers == 0 &&
    s.min_special_chars == 0

/-- The replacement chain of the `for i in range(min_length)` loop body
(lines 90-101): the four mutually exclusive `if`/`elif` branches.  The
candidate only ever holds ASCII characters, on which Python's
`str.isalpha`/`str.isupper`/`str.isdigit` agree with `Char.isAlpha`/
`Char.isUpper`/`Char.isDigit`. -/
def genReplace (σ : Nat → Nat) (s : GenState) (i : Nat) : GenState :=
  let c := s.password.getD i ' '
  if c.isAlpha ∧ 0 < s.min_chars then
    { s with password := s.password.set i (choice asciiLetters (σ s.k)),
             min_chars := s.min_chars - 1, k := s.k + 1 }
  else if c.isUpper ∧ 0 < s.min_lowerupper then
    { s with password := s.password.set i (choice asciiUppercase (σ s.k)),
             min_lowerupper := s.min_lowerupper - 1, k := s.k + 1 }
  else if c.isDigit ∧ 0 < s.min_numbers then
    { s with password := s.password.set i (choice asciiDigits (σ s.k)),
             min_numbers := s.min_numbers - 1, k := s.k + 1 }
  else if c ∈ punctuation ∧ 0 < s.min_special_chars then
    { s with password := s.password.set i (choice punctuation (σ s.k)),
             min_special_chars := s.min_special_chars - 1, k := s.k + 1 }
  else s

/-- The full body of the `for i in range(min_length)` loop (lines 90-104): the
replacement chain followed by the readiness test of lines 103-104. -/
def genStep (σ : Nat → Nat) (s : GenState) (i : Nat) : GenState :=
  let s1 := genReplace σ s i
  if countersDone s1 then { s1 with password_ready := true } else s1

/-- One full left-to-right pass `for i in range(min_length)` over the candidate. -/
def genPass (σ : Nat → Nat) (L : Nat) (s : GenState) : GenState :=
  (List.range L).foldl (genStep σ) s

/-- The constant `max_iterations = 1000` of line 85. -/
def maxIterations : Nat := 1000

/-- The `while not password_ready and iteration_count < max_iterations` loop of
lines 88-106, with the guard `iteration_count < max_iterations` carried as the
structurally decreasing remaining budget `f = max_iterations - iteration_count`
(so `0 < f` is exactly the source guard; the loop is entered with
`f = maxIterations`, `count = 0`).  Returns the final state together with the
final value of `iteration_count`. -/
def genLoop (σ : Nat → Nat) (L : Nat) : Nat → GenState → Nat → GenState × Nat
  | 0, s, count => (s, count)
  | f + 1, s, count =>
    if s.password_ready = false then genLoop σ L f (genPass σ L s) (count + 1)
    else (s, count)

/-- The initial random alphanumeric fill of line 81:
`random.choices(string.ascii_letters + string.digits, k=min_length)`. -/
def initialFill (p : Policy) (σ : Nat → Nat) : List Char :=
  (List.range (effectiveLen p)).map (fun i => choice alnumPool (σ i))

/-- The generation state right after the initial fill: counters loaded from the
policy, `password_ready = False`, and the first `effectiveLen p` raw draws
consumed by the fill. -/
def initState (p : Policy) (σ : Nat → Nat) : GenState :=
  { password := initialFill p σ, min_chars := p.chars,
    min_lowerupper := p.lowerupper, min_numbers := p.numbers,
    min_special_chars := p.special_chars, password_ready := false,
    k := effectiveLen p }

/-- One generation attempt (lines 81-113 up to, but not including, the recursive
retry): initial fill, then up to `maxIterations` passes; `some` of the joined
candidate when `password_ready` was reached, `none` when the attempt is
exhausted and line 109 would restart. -/
def generateAttempt (p : Policy) (σ : Nat → Nat) : Option String :=
  let r := genLoop σ (effectiveLen p) maxIterations (initState p σ) 0
  if r.1.password_ready then some (String.mk r.1.password) else none

/-- The retry structure of `Password.generate`: run an attempt; on exhaustion,
line 109 recursively restarts with the same policy.  The source recursion is
unbounded, so it is modelled with an explicit retry budget `fuel`; round `a`
of the retry uses the raw-draw stream `σs a`. -/
def generateFuel (p : Policy) (σs : Nat → Nat → Nat) : Nat → Option String
  | 0 => none
  | fuel + 1 =>
    match generateAttempt p (σs 0) with
    | some s => some s
    | none => generateFuel p (fun a => σs (a + 1)) fuel

/-- A raw policy dict as received from the server: each field is absent
(`none`, a missing key) or a raw string value to be parsed by `int(...)`. -/
structure RawPolicy where
  length : Option String
  chars : Option String
  special_chars : Option String
  lowerupper : Option String
  numbers : Option String

/-- Python's `int(s)` on a non-negative decimal string: optional surrounding
whitespace, optional leading `+`, then at least one digit; anything else fails
(raises `ValueError`, modelled as `none`).  Negative values are outside the
model: spec §3 declares every policy field a non-negative integer. -/
def pyIntNat (s : String) : Option Nat :=
  let t := ((s.data.dropWhile Char.isWhitespace).reverse.dropWhile
    Char.isWhitespace).reverse
  let t2 := match t with
    | '+' :: rest => rest
    | _ => t
  if t2 ≠ [] ∧ t2.all Char.isDigit then
    some (t2.foldl (fun n c => n * 10 + (c.toNat - 48)) 0)
  else none

/-- The five `int(policy[...])` conversions of lines 70-74: fails when a key is
missing (`KeyError`) or its value does not parse (`ValueError`); either way no
password string is produced. -/
def parsePolicy (raw : RawPolicy) : Option Policy := do
  let l ← raw.length.bind pyIntNat
  let c ← raw.chars.bind pyIntNat
  let sc ← raw.special_chars.bind pyIntNat
  let lu ← raw.lowerupper.bind pyIntNat
  let n ← raw.numbers.bind pyIntNat
  pure ⟨l, c, sc, lu, n⟩

/-- The full `Password.generate` entry point (lines 60-113).  `rawPolicy` is the
acquired policy (`none` when `Password.policy()` yielded nothing, lines 63-68);
a parse failure of any field produces no password string.  The source retry at
line 109 re-passes the same dict, re-parsing it to the same `Policy` each round
since `parsePolicy` is deterministic, so the retry happens at the parsed level. -/
def generate (rawPolicy : Option RawPolicy) (σs : Nat → Nat → Nat) (fuel : Nat) :
    Option String :=
  match rawPolicy with
  | none => none
  | some raw =>
    match parsePolicy raw with
    | none => none
    | some p => generateFuel p σs fuel

/-- Python's `password.count(ch)` on a list of characters. -/
def pyCount (s : List Char) (ch : Char) : Nat := (s.filter (fun c => c = ch)).length

/-- The tallies `sum([password.count(char) for char in pool])` used by
`Password.validate` (lines 133, 137, 141, 145). -/
def classCount (s : List Char) (pool : List Char) : Nat :=
  (pool.map (pyCount s)).sum

/-- The reason logged by `Password.validate` at its first failing check. -/
inductive FailReason where
  | tooShort
  | notEnoughAlpha
  | notEnoughUpper
  | notEnoughDigits
  | notEnoughSpecial
deriving DecidableEq, Repr

/-- The body of `Password.validate` (lines 129-152) with the logged reason made
explicit: five checks in source order, each an early `return False`. -/
def validateR (password : String) (p : Policy) : Except FailReason Unit :=
  if password.length < p.length then .error .tooShort
  else if classCount password.data asciiLetters < p.chars then .error .notEnoughAlpha
  else if classCount password.data asciiUppercase < p.lowerupper then .error .notEnoughUpper
  else if classCount password.data asciiDigits < p.numbers then .error .notEnoughDigits
  else if classCount password.data punctuation < p.special_chars then .error .notEnoughSpecial
  else .ok ()

/-- The boolean verdict of `Password.validate`. -/
def validate (password : String) (p : Policy) : Bool :=
  match validateR password p with
  | .ok _ => true
  | .error _ => false

/-- Lines 122-127 of `Password.validate`: when called without a policy it
fetches one; if the fetch yields nothing it returns `False`. -/
def validateOpt (password : String) (fetched : Option Policy) : Bool :=
  match fetched with
  | none => false
  | some p => validate password p

/-- Spec-side description (§4.3 of the specification document) of the five
validation checks: reason and boolean condition, in the order the spec lists
them.  The length condition compares against the policy's raw `min_length`,
which is what the source does; see `validate_raw_length_example` for why the
normalized length would be wrong. -/
def specCheckList (password : String) (p : Policy) : List (FailReason × Bool) :=
  [ (.tooShort, decide (p.length ≤ password.length)),
    (.notEnoughAlpha, decide (p.chars ≤ classCount password.data asciiLetters)),
    (.notEnoughUpper, decide (p.lowerupper ≤ classCount password.data asciiUppercase)),
    (.notEnoughDigits, decide (p.numbers ≤ classCount password.data asciiDigits)),
    (.notEnoughSpecial, decide (p.special_chars ≤ classCount password.data punctuation)) ]

/-- Spec-side first-failing-check semantics: scan the ordered checks and
report the first one whose condition fails, succeeding when all hold. -/
def firstFailure : List (FailReason × Bool) → Except FailReason Unit
  | [] => .ok ()
  | (r, ok) :: rest => if ok then firstFailure rest else .error r

/-- The HTTP response of the mailbox-edit POST as far as `Password.set` reads
it: the status code and whether the JSON body is `"type": "error"`. -/
structure MailcowResponse where
  status_code : Nat
  is_error : Bool

/-- The control flow of `Password.set` (lines 163-202).  `fetched` is the policy
that `validate(password)` acquires, `mailboxExists` the `Mailbox.exists` answer,
`resp` the response of the POST.  The first component is the returned boolean,
the second records whether the mailbox-edit POST of line 192 was issued. -/
def setPassword (fetched : Option Policy) (mailboxExists : Bool)
    (resp : MailcowResponse) (password : String) : Bool × Bool :=
  if validateOpt password fetched = false then (false, false)
  else if mailboxExists = false then (false, false)
  else if 299 < resp.status_code ∨ resp.is_error then (false, true)
  else (true, true)

/-! Basic facts about the character pools and one draw of the random source. -/

/-- A draw from a nonempty pool lands in the pool. -/
theorem choice_mem (pool : List Char) (r : Nat) (h : pool ≠ []) :
    choice pool r ∈ pool := by
  have hl : 0 < pool.length := List.length_pos.mpr h
  have hr : r % pool.length < pool.length := Nat.mod_lt _ hl
  rw [choice, List.getD_eq_getElem _ _ hr]
  exact List.getElem_mem hr

theorem alnumPool_ne_nil : alnumPool ≠ [] := by decide

theorem asciiLetters_ne_nil : asciiLetters ≠ [] := by decide

theorem mem_alnum_not_punct : ∀ c ∈ alnumPool, c ∉ punctuation := by decide

theorem space_not_punct : (' ' : Char) ∉ punctuation := by decide

theorem letters_mem_alnum : ∀ c ∈ asciiLetters, c ∈ alnumPool := by decide

theorem upper_mem_alnum : ∀ c ∈ asciiUppercase, c ∈ alnumPool := by decide

theorem digits_mem_alnum : ∀ c ∈ asciiDigits, c ∈ alnumPool := by decide

/-! Structural lemmas about the replacement chain `genReplace`. -/

/-- `countersDone` unfolded to propositional equalities. -/
theorem countersDone_iff (s : GenState) :
    countersDone s = true ↔
      s.min_chars = 0 ∧ s.min_lowerupper = 0 ∧ s.min_numbers = 0 ∧
        s.min_special_chars = 0 := by
  simp only [countersDone, Bool.and_eq_true, beq_iff_eq]
  tauto

/-- The readiness test ignores the `password_ready` flag itself. -/
theorem countersDone_setReady (s : GenState) (b : Bool) :
    countersDone { s with password_ready := b } = countersDone s := rfl

/-- The replacement chain never touches the `password_ready` flag. -/
theorem genReplace_ready (σ : Nat → Nat) (s : GenState) (i : Nat) :
    (genReplace σ s i).password_ready = s.password_ready := by
  simp only [genReplace]
  split_ifs <;> rfl

/-- The replacement chain never changes the length of the candidate. -/
theorem genReplace_length (σ : Nat → Nat) (s : GenState) (i : Nat) :
    (genReplace σ s i).password.length = s.password.length := by
  simp only [genReplace]
  split_ifs <;> first | rfl | (dsimp only; rw [List.length_set])

/-- The replacement chain never increases any counter. -/
theorem genReplace_counters_le (σ : Nat → Nat) (s : GenState) (i : Nat) :
    (genReplace σ s i).min_chars ≤ s.min_chars ∧
    (genReplace σ s i).min_lowerupper ≤ s.min_lowerupper ∧
    (genReplace σ s i).min_numbers ≤ s.min_numbers ∧
    (genReplace σ s i).min_special_chars ≤ s.min_special_chars := by
  simp only [genReplace]
  split_ifs <;> first | omega | (dsimp only; omega)

/-- Unless the inspected position already holds a punctuation character, the
special-character counter is left alone. -/
theorem genReplace_special_eq (σ : Nat → Nat) (s : GenState) (i : Nat)
    (h : s.password.getD i ' ' ∉ punctuation) :
    (genReplace σ s i).min_special_chars = s.min_special_chars := by
  simp only [genReplace]
  split_ifs with h1 h2 h3 h4 <;> first | rfl | exact absurd h4.1 h

/-- Unless the inspected position holds an alphabetic character, the
alphabetic counter is left alone. -/
theorem genReplace_chars_eq (σ : Nat → Nat) (s : GenState) (i : Nat)
    (h : (s.password.getD i ' ').isAlpha = false) :
    (genReplace σ s i).min_chars = s.min_chars := by
  simp only [genReplace]
  split_ifs with h1 h2 h3 h4 <;>
    first | rfl | (rw [h] at h1; exact absurd h1.1 (by simp))

/-- When all four counters are already zero no branch fires. -/
theorem genReplace_of_done (σ : Nat → Nat) (s : GenState) (i : Nat)
    (h : countersDone s = true) : genReplace σ s i = s := by
  obtain ⟨h1, h2, h3, h4⟩ := (countersDone_iff s).mp h
  simp only [genReplace]
  split_ifs with g1 g2 g3 g4 <;> first | rfl | omega

/-- Generic preservation of a per-character property by the replacement chain:
the property must hold of everything the branches can write, given the guard
of the branch that writes it. -/
theorem genReplace_mem {σ : Nat → Nat} {s : GenState} {i : Nat}
    {Q : Char → Prop}
    (hAll : ∀ c ∈ s.password, Q c)
    (hLetters : (s.password.getD i ' ').isAlpha = true →
      ∀ r, Q (choice asciiLetters r))
    (hUpper : (s.password.getD i ' ').isUpper = true →
      ∀ r, Q (choice asciiUppercase r))
    (hDigits : (s.password.getD i ' ').isDigit = true →
      ∀ r, Q (choice asciiDigits r))
    (hPunct : s.password.getD i ' ' ∈ punctuation →
      ∀ r, Q (choice punctuation r)) :
    ∀ c ∈ (genReplace σ s i).password, Q c := by
  have hset : ∀ (x : Char) (l : List Char), Q x →
      (∀ c ∈ l, Q c) → ∀ c ∈ l.set i x, Q c := by
    intro x l hx hl c hcs
    rcases List.mem_or_eq_of_mem_set hcs with hcl | rfl
    · exact hl c hcl
    · exact hx
  simp only [genReplace]
  split_ifs with h1 h2 h3 h4 <;>
    first
      | exact hAll
      | exact hset _ _ (hLetters h1.1 _) hAll
      | exact hset _ _ (hUpper h2.1 _) hAll
      | exact hset _ _ (hDigits h3.1 _) hAll
      | exact hset _ _ (hPunct h4.1 _) hAll

/-! Structural lemmas about the full loop body `genStep`. -/

/-- `genStep` written without its `let`. -/
theorem genStep_eq (σ : Nat → Nat) (s : GenState) (i : Nat) :
    genStep σ s i =
      if countersDone (genReplace σ s i) then
        { genReplace σ s i with password_ready := true }
      else genReplace σ s i := by
  simp only [genStep]

/-- One loop body never changes the length of the candidate. -/
theorem genStep_length (σ : Nat → Nat) (s : GenState) (i : Nat) :
    (genStep σ s i).password.length = s.password.length := by
  rw [genStep_eq]
  split_ifs <;> exact genReplace_length σ s i

/-- One loop body never increases any counter. -/
theorem genStep_counters_le (σ : Nat → Nat) (s : GenState) (i : Nat) :
    (genStep σ s i).min_chars ≤ s.min_chars ∧
    (genStep σ s i).min_lowerupper ≤ s.min_lowerupper ∧
    (genStep σ s i).min_numbers ≤ s.min_numbers ∧
    (genStep σ s i).min_special_chars ≤ s.min_special_chars := by
  rw [genStep_eq]
  split_ifs <;> exact genReplace_counters_le σ s i

/-- One loop body changes `password_ready` only by observing that all four
counters of the updated state are zero. -/
theorem genStep_ready_cases (σ : Nat → Nat) (s : GenState) (i : Nat) :
    (genStep σ s i).password_ready = s.password_ready ∨
      countersDone (genStep σ s i) = true := by
  rw [genStep_eq]
  split_ifs with hd
  · right
    rw [countersDone_setReady]
    exact hd
  · left
    exact genReplace_ready σ s i

/-- If the updated state still has a positive counter, the flag is carried
over unchanged. -/
theorem genStep_ready_of_pos (σ : Nat → Nat) (s : GenState) (i : Nat)
    (h : s.password_ready = false)
    (hpos : 0 < (genStep σ s i).min_chars ∨
      0 < (genStep σ s i).min_special_chars) :
    (genStep σ s i).password_ready = false := by
  rcases genStep_ready_cases σ s i with hr | hr
  · rw [hr, h]
  · obtain ⟨e1, _, _, e4⟩ := (countersDone_iff _).mp hr
    rcases hpos with hp | hp <;> omega

/-- When all four counters are already zero, the loop body only raises the
`password_ready` flag: the candidate and the counters stay untouched. -/
theorem genStep_done (σ : Nat → Nat) (s : GenState) (i : Nat)
    (h : countersDone s = true) :
    genStep σ s i = { s with password_ready := true } := by
  rw [genStep_eq, genReplace_of_done σ s i h, if_pos h]

/-- Updating `password_ready` to the value it already has is the identity. -/
theorem setReady_eq_self {s : GenState} (h : s.password_ready = true) :
    { s with password_ready := true } = s := by
  cases s
  simp_all

/-- Character-class facts about the digit pool, used for the all-digit
adversarial run. -/
theorem digits_flags :
    ∀ c ∈ asciiDigits, c.isAlpha = false ∧ c.isUpper = false ∧
      c ∉ punctuation := by decide

/-- The padding character a `getD` out of range returns fires no branch. -/
theorem space_flags :
    (' ' : Char).isAlpha = false ∧ (' ' : Char).isUpper = false ∧
      (' ' : Char).isDigit = false ∧ (' ' : Char) ∉ punctuation := by decide

/-- The inspected character is either a candidate character or the padding. -/
theorem getD_cases (l : List Char) (i : Nat) :
    l.getD i ' ' ∈ l ∨ l.getD i ' ' = ' ' := by
  rcases Nat.lt_or_ge i l.length with hi | hi
  · left
    rw [List.getD_eq_getElem _ _ hi]
    exact List.getElem_mem hi
  · right
    rw [List.getD_eq_default _ _ hi]

/-- A candidate that only holds alphanumeric characters keeps that property
under one loop body, and its special-character counter cannot move: the
punctuation branch requires a punctuation character to be in place already. -/
theorem genStep_alnum (σ : Nat → Nat) (s : GenState) (i : Nat)
    (h : ∀ c ∈ s.password, c ∈ alnumPool) :
    (∀ c ∈ (genStep σ s i).password, c ∈ alnumPool) ∧
      (genStep σ s i).min_special_chars = s.min_special_chars := by
  have hc : s.password.getD i ' ' ∉ punctuation := by
    rcases getD_cases s.password i with hm | he
    · exact mem_alnum_not_punct _ (h _ hm)
    · rw [he]
      exact space_not_punct
  have hmem : ∀ c ∈ (genReplace σ s i).password, c ∈ alnumPool := by
    refine genReplace_mem h ?_ ?_ ?_ ?_
    · intro _ r
      exact letters_mem_alnum _ (choice_mem _ _ asciiLetters_ne_nil)
    · intro _ r
      exact upper_mem_alnum _ (choice_mem _ _ (by decide))
    · intro _ r
      exact digits_mem_alnum _ (choice_mem _ _ (by decide))
    · intro hp
      exact absurd hp hc
  have hsp : (genReplace σ s i).min_special_chars = s.min_special_chars :=
    genReplace_special_eq σ s i hc
  rw [genStep_eq]
  split_ifs <;> exact ⟨hmem, hsp⟩

/-- A candidate that only holds digits keeps that property under one loop
body, and its alphabetic counter cannot move: digits never satisfy the
alphabetic guard, and no branch turns a digit position into a letter. -/
theorem genStep_digits (σ : Nat → Nat) (s : GenState) (i : Nat)
    (h : ∀ c ∈ s.password, c ∈ asciiDigits) :
    (∀ c ∈ (genStep σ s i).password, c ∈ asciiDigits) ∧
      (genStep σ s i).min_chars = s.min_chars := by
  have hflags : (s.password.getD i ' ').isAlpha = false ∧
      (s.password.getD i ' ').isUpper = false ∧
      s.password.getD i ' ' ∉ punctuation := by
    rcases getD_cases s.password i with hm | he
    · exact digits_flags _ (h _ hm)
    · rw [he]
      exact ⟨space_flags.1, space_flags.2.1, space_flags.2.2.2⟩
  have hmem : ∀ c ∈ (genReplace σ s i).password, c ∈ asciiDigits := by
    refine genReplace_mem h ?_ ?_ ?_ ?_
    · intro ha
      rw [hflags.1] at ha
      exact absurd ha (by decide)
    · intro ha
      rw [hflags.2.1] at ha
      exact absurd ha (by decide)
    · intro _ r
      exact choice_mem _ _ (by decide)
    · intro hp
      exact absurd hp hflags.2.2
  have hch : (genReplace σ s i).min_chars = s.min_chars :=
    genReplace_chars_eq σ s i hflags.1
  rw [genStep_eq]
  split_ifs <;> exact ⟨hmem, hch⟩

/-! Lemmas about one full pass and about the bounded while loop. -/

/-- A property preserved by every loop body is preserved by a fold of loop
bodies. -/
theorem foldl_genStep_preserve {σ : Nat → Nat} {P : GenState → Prop}
    (hP : ∀ s i, P s → P (genStep σ s i)) :
    ∀ (l : List Nat) (s : GenState), P s → P (l.foldl (genStep σ) s)
  | [], _, hs => hs
  | i :: l, s, hs => foldl_genStep_preserve hP l _ (hP s i hs)

/-- A property preserved by every loop body is preserved by one full pass. -/
theorem genPass_preserve {σ : Nat → Nat} {L : Nat} {P : GenState → Prop}
    (hP : ∀ s i, P s → P (genStep σ s i)) (s : GenState) (hs : P s) :
    P (genPass σ L s) :=
  foldl_genStep_preserve hP (List.range L) s hs

/-- A property preserved by every pass is preserved by the while loop. -/
theorem genLoop_preserve {σ : Nat → Nat} {L : Nat} {P : GenState → Prop}
    (hP : ∀ s, P s → P (genPass σ L s)) :
    ∀ (f : Nat) (s : GenState) (count : Nat), P s → P (genLoop σ L f s count).1
  | 0, _, _, hs => hs
  | f + 1, s, count, hs => by
    simp only [genLoop]
    split_ifs with h
    · exact genLoop_preserve hP f _ _ (hP s hs)
    · exact hs

/-- The while loop runs at most `f` more passes: the final `iteration_count`
exceeds the starting one by at most the remaining budget. -/
theorem genLoop_count_le {σ : Nat → Nat} {L : Nat} :
    ∀ (f : Nat) (s : GenState) (count : Nat),
      (genLoop σ L f s count).2 ≤ count + f
  | 0, s, count => by simp [genLoop]
  | f + 1, s, count => by
    simp only [genLoop]
    split_ifs with h
    · have := @genLoop_count_le σ L f (genPass σ L s) (count + 1)
      omega
    · simp

/-- Once `password_ready` is set the while loop stops at once, whatever budget
remains. -/
theorem genLoop_ready_stop {σ : Nat → Nat} {L : Nat} (f : Nat) (s : GenState)
    (count : Nat) (h : s.password_ready = true) :
    genLoop σ L f s count = (s, count) := by
  cases f
  · rfl
  · simp [genLoop, h]

/-! Lemmas about one generation attempt and about the retry structure. -/

/-- The initial fill has exactly the effective length. -/
theorem initialFill_length (p : Policy) (σ : Nat → Nat) :
    (initialFill p σ).length = effectiveLen p := by
  simp [initialFill]

/-- The initial fill draws only alphanumeric characters. -/
theorem initialFill_mem_alnum (p : Policy) (σ : Nat → Nat) :
    ∀ c ∈ initialFill p σ, c ∈ alnumPool := by
  intro c hc
  simp only [initialFill, List.mem_map] at hc
  obtain ⟨i, _, rfl⟩ := hc
  exact choice_mem _ _ alnumPool_ne_nil

/-- An attempt whose loop maintains an invariant that keeps `password_ready`
false is exhausted and yields nothing. -/
theorem generateAttempt_none_of_inv {p : Policy} {σ : Nat → Nat}
    {P : GenState → Prop}
    (hstep : ∀ s i, P s → P (genStep σ s i))
    (hready : ∀ s, P s → s.password_ready = false)
    (hinit : P (initState p σ)) :
    generateAttempt p σ = none := by
  have hfin : P (genLoop σ (effectiveLen p) maxIterations (initState p σ) 0).1 :=
    genLoop_preserve (fun s hs => genPass_preserve hstep s hs) maxIterations _ 0 hinit
  simp [generateAttempt, hready _ hfin]

/-- A policy with a positive special-character requirement exhausts every
attempt: the candidate never holds punctuation, so the special counter never
moves and readiness is unreachable. -/
theorem generateAttempt_none_of_special_pos (p : Policy) (σ : Nat → Nat)
    (h : 0 < p.special_chars) : generateAttempt p σ = none := by
  refine @generateAttempt_none_of_inv p σ
    (fun s => (∀ c ∈ s.password, c ∈ alnumPool) ∧
      s.min_special_chars = p.special_chars ∧ s.password_ready = false)
    ?_ (fun s hs => hs.2.2) ⟨initialFill_mem_alnum p σ, rfl, rfl⟩
  intro s i hs
  obtain ⟨hm, he, hr⟩ := hs
  obtain ⟨hm2, he2⟩ := genStep_alnum σ s i hm
  have he3 : (genStep σ s i).min_special_chars = p.special_chars := by
    rw [he2, he]
  refine ⟨hm2, he3, ?_⟩
  exact genStep_ready_of_pos σ s i hr (Or.inr (by omega))

/-- A policy with a positive alphabetic requirement exhausts every attempt
whose initial fill happens to contain digits only: no branch ever writes a
letter over a digit, so the alphabetic counter never moves. -/
theorem generateAttempt_none_of_digit_fill (p : Policy) (σ : Nat → Nat)
    (hfill : ∀ c ∈ initialFill p σ, c ∈ asciiDigits)
    (h : 0 < p.chars) : generateAttempt p σ = none := by
  refine @generateAttempt_none_of_inv p σ
    (fun s => (∀ c ∈ s.password, c ∈ asciiDigits) ∧
      s.min_chars = p.chars ∧ s.password_ready = false)
    ?_ (fun s hs => hs.2.2) ⟨hfill, rfl, rfl⟩
  intro s i hs
  obtain ⟨hm, he, hr⟩ := hs
  obtain ⟨hm2, he2⟩ := genStep_digits σ s i hm
  have he3 : (genStep σ s i).min_chars = p.chars := by
    rw [he2, he]
  refine ⟨hm2, he3, ?_⟩
  exact genStep_ready_of_pos σ s i hr (Or.inl (by omega))

/-- A successful attempt returns a candidate of exactly the effective length
whose characters all come from the alphanumeric pool. -/
theorem generateAttempt_some_props {p : Policy} {σ : Nat → Nat} {str : String}
    (h : generateAttempt p σ = some str) :
    str.length = effectiveLen p ∧ ∀ c ∈ str.data, c ∈ alnumPool := by
  have hfin : (genLoop σ (effectiveLen p) maxIterations (initState p σ) 0).1.password.length
        = effectiveLen p ∧
      ∀ c ∈ (genLoop σ (effectiveLen p) maxIterations (initState p σ) 0).1.password,
        c ∈ alnumPool := by
    refine @genLoop_preserve σ (effectiveLen p)
      (fun s => s.password.length = effectiveLen p ∧ ∀ c ∈ s.password, c ∈ alnumPool)
      ?_ maxIterations _ 0 ⟨initialFill_length p σ, initialFill_mem_alnum p σ⟩
    intro s hs
    refine @genPass_preserve σ (effectiveLen p)
      (fun s => s.password.length = effectiveLen p ∧ ∀ c ∈ s.password, c ∈ alnumPool)
      ?_ s hs
    intro t i ht
    refine ⟨?_, (genStep_alnum σ t i ht.2).1⟩
    rw [genStep_length]
    exact ht.1
  revert h
  simp only [generateAttempt]
  split_ifs with hr
  · intro h
    obtain rfl := Option.some.inj h
    exact hfin
  · intro h
    cases h

/-- When every retry round is exhausted, the retry never returns a string,
however large the budget. -/
theorem generateFuel_none_of_all (p : Policy) :
    ∀ (fuel : Nat) (σs : Nat → Nat → Nat),
      (∀ k, generateAttempt p (σs k) = none) → generateFuel p σs fuel = none
  | 0, _, _ => rfl
  | fuel + 1, σs, h => by
    simp only [generateFuel, h 0]
    exact generateFuel_none_of_all p fuel _ (fun k => h (k + 1))

/-- A string returned by the retry structure is the output of some successful
attempt round. -/
theorem generateFuel_some_ex (p : Policy) :
    ∀ (fuel : Nat) (σs : Nat → Nat → Nat) (str : String),
      generateFuel p σs fuel = some str →
      ∃ k, generateAttempt p (σs k) = some str
  | 0, _, _, h => by cases h
  | fuel + 1, σs, str, h => by
    rw [generateFuel] at h
    cases hA : generateAttempt p (σs 0) with
    | some s =>
      rw [hA] at h
      exact ⟨0, by rw [hA, Option.some.inj h]⟩
    | none =>
      rw [hA] at h
      obtain ⟨k, hk⟩ := generateFuel_some_ex p fuel _ str h
      exact ⟨k + 1, hk⟩

/-! Fixed-point lemmas for states whose counters are exhausted. -/

/-- A state every loop body leaves alone is left alone by any fold of loop
bodies. -/
theorem foldl_genStep_fixed {σ : Nat → Nat} {s : GenState}
    (hfix : ∀ i, genStep σ s i = s) :
    ∀ l : List Nat, l.foldl (genStep σ) s = s
  | [] => rfl
  | i :: l => by
    rw [List.foldl_cons, hfix i]
    exact foldl_genStep_fixed hfix l

/-- A ready state with exhausted counters is a fixed point of the loop body. -/
theorem genStep_fixed_of_done_ready {σ : Nat → Nat} {s : GenState}
    (hd : countersDone s = true) (hr : s.password_ready = true) (i : Nat) :
    genStep σ s i = s := by
  rw [genStep_done σ s i hd, setReady_eq_self hr]

/-- On a state with exhausted counters and at least one position, one full
pass does nothing except raise the ready flag (at the first position). -/
theorem genPass_done_pos {σ : Nat → Nat} {L : Nat} {s : GenState}
    (hd : countersDone s = true) (hL : 0 < L) :
    genPass σ L s = { s with password_ready := true } := by
  obtain ⟨n, rfl⟩ : ∃ n, L = n + 1 := ⟨L - 1, by omega⟩
  unfold genPass
  rw [List.range_succ_eq_map, List.foldl_cons, genStep_done σ s 0 hd]
  refine foldl_genStep_fixed ?_ _
  intro i
  refine genStep_fixed_of_done_ready ?_ rfl i
  rw [countersDone_setReady]
  exact hd

/-- One unfolding of the while loop when the guard holds. -/
theorem genLoop_step_not_ready {σ : Nat → Nat} {L : Nat} (f count : Nat)
    (s : GenState) (h : s.password_ready = false) :
    genLoop σ L (f + 1) s count = genLoop σ L f (genPass σ L s) (count + 1) := by
  simp [genLoop, h]

/-! Claim theorems. -/

/-- C4: normalization raises the effective minimum length to the sum of the
four class minimums exactly when that sum exceeds `min_length` and keeps
`min_length` otherwise, so the effective length always dominates the sum; the
step is a pure function of the policy's non-negative integer fields. -/
theorem effectiveLen_normalization (p : Policy) :
    p.chars + p.lowerupper + p.numbers + p.special_chars ≤ effectiveLen p ∧
    (p.length < p.chars + p.lowerupper + p.numbers + p.special_chars →
      effectiveLen p = p.chars + p.lowerupper + p.numbers + p.special_chars) ∧
    (p.chars + p.lowerupper + p.numbers + p.special_chars ≤ p.length →
      effectiveLen p = p.length) := by
  unfold effectiveLen
  split_ifs <;> omega

/-- Witness for C4 at the spec's two scenario policies. -/
theorem effectiveLen_normalization_witness :
    effectiveLen ⟨4, 2, 0, 1, 3⟩ = 2 + 1 + 3 + 0 ∧
      effectiveLen ⟨8, 2, 0, 1, 1⟩ = 8 :=
  ⟨(effectiveLen_normalization ⟨4, 2, 0, 1, 3⟩).2.1 (by decide),
   (effectiveLen_normalization ⟨8, 2, 0, 1, 1⟩).2.2 (by decide)⟩

/-- C8: with no acquired policy, or with a policy dict whose fields are
missing or unparseable as integers, `generate` produces no password string. -/
theorem generate_policy_failure (σs : Nat → Nat → Nat) (fuel : Nat)
    (raw : RawPolicy) :
    generate none σs fuel = none ∧
    (parsePolicy raw = none → generate (some raw) σs fuel = none) := by
  refine ⟨rfl, ?_⟩
  intro h
  simp [generate, h]

/-- Witness for C8: a policy whose `chars` field does not parse. -/
theorem generate_policy_failure_witness :
    generate (some ⟨some "8", some "x", some "0", some "1", some "1"⟩)
      (fun _ _ => 0) 5 = none :=
  (generate_policy_failure (fun _ _ => 0) 5
    ⟨some "8", some "x", some "0", some "1", some "1"⟩).2 (by decide)

/-- C10: when validation rejects the password, or the mailbox does not exist,
`Password.set` returns false and the mailbox-edit POST is never issued (the
second component records whether the request was sent). -/
theorem set_rejects_without_request (fetched : Option Policy)
    (mailboxExists : Bool) (resp : MailcowResponse) (password : String)
    (h : validateOpt password fetched = false ∨ mailboxExists = false) :
    setPassword fetched mailboxExists resp password = (false, false) := by
  unfold setPassword
  rcases h with h | h
  · rw [if_pos h]
  · subst h
    by_cases h1 : validateOpt password fetched = false
    · rw [if_pos h1]
    · rw [if_neg h1, if_pos rfl]

/-- Witness for C10: an unavailable policy makes validation fail, so no
request is issued. -/
theorem set_rejects_witness :
    setPassword none true ⟨200, false⟩ "Secret123" = (false, false) :=
  set_rejects_without_request none true ⟨200, false⟩ "Secret123" (Or.inl rfl)

/-- C5 (amended): `validate` evaluates its five checks in the order length,
alphabetic count, uppercase count, digit count, special count, and
short-circuits at the first failure with that check's reason; its first check
compares against the policy's raw (un-normalized) `min_length`, so every
string shorter than the raw `min_length` is rejected as too short. -/
theorem validate_checks_in_order (password : String) (p : Policy) :
    validateR password p = firstFailure (specCheckList password p) ∧
    (password.length < p.length → validateR password p = .error .tooShort) ∧
    (validate password p = true ↔ validateR password p = .ok ()) := by
  refine ⟨?_, ?_, ?_⟩
  · simp only [validateR, specCheckList, firstFailure, decide_eq_true_eq]
    split_ifs <;> first | rfl | omega
  · intro h
    simp only [validateR]
    rw [if_pos h]
  · unfold validate
    cases hv : validateR password p with
    | ok u => simp
    | error e => simp

/-- Witness for C5 at the spec's "too short" scenario. -/
theorem validate_checks_witness :
    validateR "abc" ⟨8, 0, 0, 0, 0⟩ = .error .tooShort :=
  (validate_checks_in_order "abc" ⟨8, 0, 0, 0, 0⟩).2.1 (by decide)

/-- C5 counterexample: the claim's first check is not against the effective
(normalized) minimum length.  With policy `{length:4, chars:2, lowerupper:1,
numbers:3, special_chars:0}` the effective length is 6, yet `validate`
accepts the 5-character string "Ab123" — it compares against the raw 4. -/
theorem validate_raw_length_example :
    validate "Ab123" ⟨4, 2, 0, 1, 3⟩ = true ∧
      "Ab123".length < effectiveLen ⟨4, 2, 0, 1, 3⟩ := by
  decide

/-- C2: the candidate never holds punctuation at any point of generation: the
initial fill is alphanumeric, one loop body preserves alphanumeric
candidates while leaving the special-character counter untouched (the
punctuation branch never fires), and consequently under a policy with
`min_special > 0` the counters never all reach zero within the pass cap, so
the attempt is exhausted. -/
theorem no_punctuation_during_generation (p : Policy) (σ : Nat → Nat) :
    (∀ c ∈ initialFill p σ, c ∈ alnumPool ∧ c ∉ punctuation) ∧
    (∀ (s : GenState) (i : Nat), (∀ c ∈ s.password, c ∈ alnumPool) →
      (∀ c ∈ (genStep σ s i).password, c ∈ alnumPool) ∧
        (genStep σ s i).min_special_chars = s.min_special_chars) ∧
    (0 < p.special_chars → generateAttempt p σ = none) := by
  refine ⟨?_, ?_, ?_⟩
  · intro c hc
    exact ⟨initialFill_mem_alnum p σ c hc,
      mem_alnum_not_punct c (initialFill_mem_alnum p σ c hc)⟩
  · intro s i hm
    exact genStep_alnum σ s i hm
  · intro h
    exact generateAttempt_none_of_special_pos p σ h

/-- Witness for C2: an attempt under a policy demanding one special character
is exhausted. -/
theorem no_punctuation_witness :
    generateAttempt ⟨4, 1, 1, 0, 1⟩ (fun n => n) = none :=
  (no_punctuation_during_generation ⟨4, 1, 1, 0, 1⟩ (fun n => n)).2.2 (by decide)

/-- C9: within an attempt each of the four remaining-requirement counters is
non-increasing, both across one loop body and across the whole while loop;
once all four counters are zero the loop body only raises the ready flag and
leaves the candidate untouched, a ready state with exhausted counters is a
fixed point of a full pass, and the while loop stops at once on a ready
state — so continuing the scan is observably equivalent to stopping. -/
theorem counters_monotone_and_stable (σ : Nat → Nat) (L f count : Nat)
    (s : GenState) (i : Nat) :
    ((genStep σ s i).min_chars ≤ s.min_chars ∧
     (genStep σ s i).min_lowerupper ≤ s.min_lowerupper ∧
     (genStep σ s i).min_numbers ≤ s.min_numbers ∧
     (genStep σ s i).min_special_chars ≤ s.min_special_chars) ∧
    ((genLoop σ L f s count).1.min_chars ≤ s.min_chars ∧
     (genLoop σ L f s count).1.min_lowerupper ≤ s.min_lowerupper ∧
     (genLoop σ L f s count).1.min_numbers ≤ s.min_numbers ∧
     (genLoop σ L f s count).1.min_special_chars ≤ s.min_special_chars) ∧
    (countersDone s = true →
      genStep σ s i = { s with password_ready := true } ∧
      (genStep σ s i).password = s.password) ∧
    (countersDone s = true → s.password_ready = true →
      genPass σ L s = s ∧ genLoop σ L f s count = (s, count)) := by
  have hstep : ∀ (t : GenState) (i2 : Nat),
      (t.min_chars ≤ s.min_chars ∧ t.min_lowerupper ≤ s.min_lowerupper ∧
        t.min_numbers ≤ s.min_numbers ∧ t.min_special_chars ≤ s.min_special_chars) →
      ((genStep σ t i2).min_chars ≤ s.min_chars ∧
        (genStep σ t i2).min_lowerupper ≤ s.min_lowerupper ∧
        (genStep σ t i2).min_numbers ≤ s.min_numbers ∧
        (genStep σ t i2).min_special_chars ≤ s.min_special_chars) := by
    intro t i2 ht
    have h2 := genStep_counters_le σ t i2
    omega
  refine ⟨genStep_counters_le σ s i, ?_, ?_, ?_⟩
  · exact @genLoop_preserve σ L
      (fun t => t.min_chars ≤ s.min_chars ∧ t.min_lowerupper ≤ s.min_lowerupper ∧
        t.min_numbers ≤ s.min_numbers ∧ t.min_special_chars ≤ s.min_special_chars)
      (fun t ht => @genPass_preserve σ L _ hstep t ht) f s count
      ⟨Nat.le_refl _, Nat.le_refl _, Nat.le_refl _, Nat.le_refl _⟩
  · intro hd
    refine ⟨genStep_done σ s i hd, ?_⟩
    rw [genStep_done σ s i hd]
  · intro hd hr
    refine ⟨?_, genLoop_ready_stop f s count hr⟩
    unfold genPass
    exact foldl_genStep_fixed (genStep_fixed_of_done_ready hd hr) _

/-- Witness for C9: a loop body on an exhausted-counter state only raises the
flag, and a full pass leaves a ready exhausted state unchanged. -/
theorem counters_monotone_witness :
    genStep (fun _ => 0) ⟨['a'], 0, 0, 0, 0, false, 1⟩ 0 =
      ⟨['a'], 0, 0, 0, 0, true, 1⟩ ∧
    genPass (fun _ => 0) 5 ⟨['a'], 0, 0, 0, 0, true, 1⟩ =
      ⟨['a'], 0, 0, 0, 0, true, 1⟩ :=
  ⟨((counters_monotone_and_stable (fun _ => 0) 5 3 0
      ⟨['a'], 0, 0, 0, 0, false, 1⟩ 0).2.2.1 (by decide)).1,
   ((counters_monotone_and_stable (fun _ => 0) 5 3 0
      ⟨['a'], 0, 0, 0, 0, true, 1⟩ 0).2.2.2 (by decide) rfl).1⟩

/-- C7: one attempt performs at most `max_iterations = 1000` passes over one
candidate (the final `iteration_count` never exceeds 1000); an exhausted
attempt makes `generate` restart from a fresh initial fill with the same
policy, consuming one round of the retry budget; and when every round is
exhausted the retry yields nothing however large the budget is — the source
recursion carries no outer bound. -/
theorem generate_pass_cap_and_restart (p : Policy) (σs : Nat → Nat → Nat)
    (σ : Nat → Nat) (fuel : Nat) :
    (genLoop σ (effectiveLen p) maxIterations (initState p σ) 0).2 ≤ 1000 ∧
    (generateAttempt p (σs 0) = none →
      generateFuel p σs (fuel + 1) = generateFuel p (fun a => σs (a + 1)) fuel) ∧
    ((∀ k, generateAttempt p (σs k) = none) → generateFuel p σs fuel = none) := by
  refine ⟨?_, ?_, ?_⟩
  · have h2 := @genLoop_count_le σ (effectiveLen p) maxIterations (initState p σ) 0
    simp only [maxIterations] at h2 ⊢
    omega
  · intro h
    simp only [generateFuel, h]
  · intro h
    exact generateFuel_none_of_all p fuel σs h

/-- Witness for C7: under a policy demanding a special character every round
is exhausted, so the retry consumes its budget and yields nothing. -/
theorem generate_pass_cap_witness :
    generateFuel ⟨8, 1, 1, 1, 1⟩ (fun _ _ => 0) 7 = none ∧
    generateFuel ⟨8, 1, 1, 1, 1⟩ (fun _ _ => 0) 4 =
      generateFuel ⟨8, 1, 1, 1, 1⟩ (fun _ _ => 0) 3 ∧
    (genLoop (fun _ => 0) (effectiveLen ⟨8, 1, 1, 1, 1⟩) maxIterations
      (initState ⟨8, 1, 1, 1, 1⟩ (fun _ => 0)) 0).2 ≤ 1000 :=
  ⟨(generate_pass_cap_and_restart ⟨8, 1, 1, 1, 1⟩ (fun _ _ => 0) (fun _ => 0) 7).2.2
      (fun _ => generateAttempt_none_of_special_pos ⟨8, 1, 1, 1, 1⟩ _ (by decide)),
   (generate_pass_cap_and_restart ⟨8, 1, 1, 1, 1⟩ (fun _ _ => 0) (fun _ => 0) 3).2.1
      (generateAttempt_none_of_special_pos ⟨8, 1, 1, 1, 1⟩ _ (by decide)),
   (generate_pass_cap_and_restart ⟨8, 1, 1, 1, 1⟩ (fun _ _ => 0) (fun _ => 0) 3).1⟩

/-- C6: a password returned by `generate` has exactly the effective minimum
length, every character of it belongs to one of the four class alphabets (in
fact only letters and digits ever occur), and the candidate's length is
fixed at creation: no loop body ever changes it. -/
theorem generate_length_and_alphabet (p : Policy) (σs : Nat → Nat → Nat)
    (fuel : Nat) (str : String) :
    (∀ (σ : Nat → Nat) (s : GenState) (i : Nat),
      (genStep σ s i).password.length = s.password.length) ∧
    (generateFuel p σs fuel = some str →
      str.length = effectiveLen p ∧
      ∀ c ∈ str.data,
        c ∈ asciiLowercase ∨ c ∈ asciiUppercase ∨ c ∈ asciiDigits ∨
          c ∈ punctuation) := by
  refine ⟨fun σ s i => genStep_length σ s i, ?_⟩
  intro h
  obtain ⟨k, hk⟩ := generateFuel_some_ex p fuel σs str h
  obtain ⟨hlen, hmem⟩ := generateAttempt_some_props hk
  refine ⟨hlen, ?_⟩
  intro c hc
  have hm := hmem c hc
  simp only [alnumPool, asciiLetters, List.append_assoc, List.mem_append] at hm
  tauto

/-- Witness for C6: the trivial policy of length one generates "a" under the
all-zero draw stream, with the right length. -/
theorem generate_length_witness :
    "a".length = effectiveLen ⟨1, 0, 0, 0, 0⟩ :=
  ((generate_length_and_alphabet ⟨1, 0, 0, 0, 0⟩ (fun _ _ => 0) 1 "a").2
    (by decide)).1

/-- When every raw draw of the fill selects a digit, the fill is all digits. -/
theorem initialFill_digits (p : Policy) (σ : Nat → Nat)
    (h : ∀ i, choice alnumPool (σ i) ∈ asciiDigits) :
    ∀ c ∈ initialFill p σ, c ∈ asciiDigits := by
  intro c hc
  simp only [initialFill, List.mem_map] at hc
  obtain ⟨i, _, rfl⟩ := hc
  exact h i

/-- Under the constant raw draw 52 (always the digit '0') the policy
`{length:1, chars:1, lowerupper:0, numbers:0, special_chars:0}` exhausts
every retry round, whatever the budget: the one-position fill is a digit and
no branch ever writes a letter, so `min_chars` stays positive forever. -/
theorem generateFuel_stuck (fuel : Nat) :
    generateFuel ⟨1, 1, 0, 0, 0⟩ (fun _ _ => 52) fuel = none := by
  refine generateFuel_none_of_all _ fuel _ ?_
  intro k
  exact generateAttempt_none_of_digit_fill _ _
    (initialFill_digits _ _ (fun i => by decide)) (by decide)

/-- C1 (code defect): a successfully generated password can fail validation.
With policy `{length:3, chars:2, lowerupper:0, numbers:0, special_chars:0}`
and the random behaviour whose initial fill is "a00" and whose alphabetic
re-draws both return 'a', the alphabetic branch fires on position 0 in two
consecutive passes — nothing marks a position as already counted — so
`min_chars` is decremented twice for a single letter position.  `generate`
returns "a00", which holds one alphabetic character, and `validate` rejects
it against the very same policy. -/
theorem generate_output_can_fail_validate :
    generateFuel ⟨3, 2, 0, 0, 0⟩
        (fun _ n => if n = 1 ∨ n = 2 then 52 else 0) 1 = some "a00" ∧
      validate "a00" ⟨3, 2, 0, 0, 0⟩ = false := by
  constructor
  · decide
  · decide

/-- C3 counterexample: a valid policy with `min_special = 0` on which
`generate` does not terminate for every behaviour of the random source.
Under the constant draw 52 every fill position is the digit '0', the
alphabetic requirement can never be met, and a million retry rounds all
fail (by `generateFuel_stuck` every budget fails, i.e. the source's unbounded
recursion never returns on this behaviour). -/
theorem generate_nontermination_example :
    generateFuel ⟨1, 1, 0, 0, 0⟩ (fun _ _ => 52) 1000000 = none :=
  generateFuel_stuck 1000000

/-- C3 (amended): universal termination over the random source holds exactly
on the degenerate subfamily: for every valid policy whose four class
minimums are all zero and whose `min_length` is positive, `generate`
terminates for every behaviour of the random source (already within the
first pass of the first attempt) and its output satisfies `validate` with
the same policy.  Any positive class minimum admits an adversarial random
behaviour that starves the corresponding counter forever. -/
theorem generate_terminates_all_zero_minimums (p : Policy)
    (σs : Nat → Nat → Nat) (fuel : Nat)
    (hc : p.chars = 0) (hu : p.lowerupper = 0) (hn : p.numbers = 0)
    (hsp : p.special_chars = 0) (hl : 0 < p.length) (hf : 0 < fuel) :
    ∃ str, generateFuel p σs fuel = some str ∧ validate str p = true := by
  have hL : effectiveLen p = p.length := by
    unfold effectiveLen
    split_ifs <;> omega
  have hLpos : 0 < effectiveLen p := by omega
  have hatt : ∀ σ : Nat → Nat,
      generateAttempt p σ = some (String.mk (initialFill p σ)) := by
    intro σ
    have hd : countersDone (initState p σ) = true := by
      rw [countersDone_iff]
      exact ⟨hc, hu, hn, hsp⟩
    have hready : (initState p σ).password_ready = false := rfl
    have hmax : maxIterations = 999 + 1 := rfl
    have hloop : genLoop σ (effectiveLen p) maxIterations (initState p σ) 0 =
        ({ initState p σ with password_ready := true }, 1) := by
      rw [hmax, genLoop_step_not_ready 999 0 _ hready,
        genPass_done_pos hd hLpos, genLoop_ready_stop 999 _ 1 rfl]
    simp only [generateAttempt, hloop]
    rfl
  obtain ⟨g, rfl⟩ : ∃ g, fuel = g + 1 := ⟨fuel - 1, by omega⟩
  refine ⟨String.mk (initialFill p (σs 0)), ?_, ?_⟩
  · simp only [generateFuel, hatt (σs 0)]
  · have hlen : (String.mk (initialFill p (σs 0))).length = p.length := by
      show (initialFill p (σs 0)).length = p.length
      rw [initialFill_length, hL]
    unfold validate validateR
    split_ifs <;> first | rfl | omega

/-- Witness for the amended C3 at the one-position all-zero policy. -/
theorem generate_terminates_witness :
    ∃ str, generateFuel ⟨1, 0, 0, 0, 0⟩ (fun _ _ => 0) 1 = some str ∧
      validate str ⟨1, 0, 0, 0, 0⟩ = true :=
  generate_terminates_all_zero_minimums ⟨1, 0, 0, 0, 0⟩ (fun _ _ => 0) 1
    rfl rfl rfl rfl (by decide) (by decide)

end MailcowTools
